import Mathlib

/-!
Verification of the envclasses repository: a configuration-overlay library
that overrides fields of dataclass instances with values decoded from
environment variables.

The repository contains two revisions of the module:
* `src/envclasses.py` (version 0.1.0), embedded below in namespace `Legacy`,
  which parses compound literals with a hand-rolled bracket splitter and
  converts booleans through `str_to_bool`;
* `src/envclasses/__init__.py` (version 0.2.4), embedded below in namespace
  `Pkg`, which parses raw values with `yaml.safe_load` and converts through
  the declared field types.

The embedding is shallow: environment storage is a function
`String → Option String`, dataclass instances are association lists of
field name to runtime value, in-place mutation becomes state passing, and
a Python exception becomes an explicit `PyErr` paired with the state at the
moment the exception escapes (so partial mutation before a failure stays
visible, as it does for a mutated-in-place Python object).
-/

namespace Envclasses

/-! ## Python runtime values -/

/-- Python exceptions that the embedded code can raise or catch.
`invalidNumberOfElement` carries the expected and the actual element count,
mirroring the message `expected=.. actual=..`; `loadEnvError` carries the
offending token, mirroring the message of `str_to_bool`. -/
inductive PyErr where
  | keyError
  | valueError
  | typeError
  | nameError
  | indexError
  | attributeError
  | recursionError
  | envclassError
  | invalidNumberOfElement (expected actual : Nat)
  | loadEnvError (token : String)
deriving DecidableEq, Repr

/-- Runtime values held in dataclass fields. Floats are modelled only as the
integral floats the verified claims exercise (`vFloat n` stands for the
Python float `n.0`); none of the claims depends on fractional float decoding.
`vObj` is a (nested) dataclass instance as an association list from field
name to value. -/
inductive Value where
  | vInt (n : Int)
  | vFloat (n : Int)
  | vBool (b : Bool)
  | vStr (s : String)
  | vNone
  | vList (elems : List Value)
  | vTuple (elems : List Value)
  | vDict (entries : List (Value × Value))
  | vObj (fields : List (String × Value))

/-- Python equality (`==`) restricted to the scalar payload values that
enumeration members carry in this library (str, int, bool, float scalars).
Compound values compare unequal here; the enum paths of the source only ever
compare scalar member payloads. -/
def valueBeq : Value → Value → Bool
  | .vInt a, .vInt b => a == b
  | .vFloat a, .vFloat b => a == b
  | .vBool a, .vBool b => a == b
  | .vStr a, .vStr b => a == b
  | .vNone, .vNone => true
  | _, _ => false

/-- Declared field types, as the runtime type descriptors the source
inspects. `envclassT` carries the declared fields of a nested, already
decorated dataclass; `enumT` carries the member type annotations of the enum
class (in declaration order) and the payload values of its members;
`optionalT t` is the typing alias `Optional[t]` (that is `Union[t, None]`). -/
inductive PyType where
  | intT
  | floatT
  | boolT
  | strT
  | listT (elem : PyType)
  | tupleT (elems : List PyType)
  | dictT (key value : PyType)
  | enumT (anns : List PyType) (members : List Value)
  | envclassT (fields : List (String × PyType))
  | optionalT (t : PyType)

/-! ## Character-level string helpers

The Python string operations used by the source (`str.upper`, `str.lower`,
`str.strip`, `str.split`) are modelled over the character list underlying a
`String`, so that every concrete evaluation reduces in the kernel. The
inputs the claims exercise are ASCII, where `Char.toUpper`/`Char.toLower`
agree with Python. -/

def charsStr (cs : List Char) : String := ⟨cs⟩

def pyUpperS (s : String) : String := charsStr (s.data.map Char.toUpper)

def pyLowerS (s : String) : String := charsStr (s.data.map Char.toLower)

/-- Python `str.strip()` with no argument: drop leading and trailing
whitespace. -/
def trimChars (cs : List Char) : List Char :=
  ((cs.dropWhile Char.isWhitespace).reverse.dropWhile Char.isWhitespace).reverse

def pyStripS (s : String) : String := charsStr (trimChars s.data)

/-- Python `str.split(sep)` for a one-character separator: splitting the
empty string yields one empty part, exactly as in Python. -/
def splitOnChar (sep : Char) (cs : List Char) : List (List Char) :=
  cs.foldr
    (fun c acc =>
      match acc with
      | g :: gs => if c = sep then [] :: g :: gs else (c :: g) :: gs
      | [] => [[c]])
    [[]]

/-- Digits of a decimal numeral to its value; `none` when empty or when any
character is not a digit. -/
def digitsToNat? (cs : List Char) : Option Nat :=
  if cs.isEmpty then none
  else if cs.all Char.isDigit then
    some (cs.foldl (fun a c => a * 10 + (c.toNat - 48)) 0)
  else none

/-- Signed decimal numeral (optional leading `-` or `+`), as accepted both
by the YAML decimal-integer resolver and by Python `int()` on a stripped
token. Underscore digit separators are not modelled (unused by the claims). -/
def parseSignedDigits? (cs : List Char) : Option Int :=
  match cs with
  | '-' :: rest => (digitsToNat? rest).map (fun n => -(n : Int))
  | '+' :: rest => (digitsToNat? rest).map (fun n => (n : Int))
  | _ => (digitsToNat? cs).map (fun n => (n : Int))

/-! ## The external YAML parser (collaborator model)

`yaml.safe_load` is an external library the source calls; the spec only
fixes the literal syntax it expects (scalars, `[..]` sequences, `{..}`
mappings). The model below covers that syntax for flat flow collections
with scalar entries, which is what every claim exercises: the YAML 1.1
boolean and null words in their resolved spellings, signed decimal
integers, plain strings, and flat bracketed sequences and brace mappings.
Nested flow collections, quoting and float scalars are outside the model. -/

inductive YamlValue where
  | int (n : Int)
  | bool (b : Bool)
  | str (s : String)
  | null
  | list (elems : List YamlValue)
  | ydict (entries : List (YamlValue × YamlValue))

/-- The exact spellings the PyYAML 1.1 resolver reads as true. -/
def yaml11True : List String :=
  ["yes", "Yes", "YES", "true", "True", "TRUE", "on", "On", "ON"]

/-- The exact spellings the PyYAML 1.1 resolver reads as false. -/
def yaml11False : List String :=
  ["no", "No", "NO", "false", "False", "FALSE", "off", "Off", "OFF"]

def yaml11Null : List String := ["null", "Null", "NULL", "~"]

/-- Resolve one plain scalar token (already stripped). -/
def yamlScalar (cs : List Char) : YamlValue :=
  if cs.isEmpty then .null
  else
    let s := charsStr cs
    if yaml11True.contains s then .bool true
    else if yaml11False.contains s then .bool false
    else if yaml11Null.contains s then .null
    else
      match parseSignedDigits? cs with
      | some n => .int n
      | none => .str s

/-- One `k: v` entry of a flat flow mapping. -/
def yamlEntry (cs : List Char) : YamlValue × YamlValue :=
  match splitOnChar ':' cs with
  | k :: v :: _ => (yamlScalar (trimChars k), yamlScalar (trimChars v))
  | [k] => (yamlScalar (trimChars k), .null)
  | [] => (.null, .null)

/-- Model of `yaml.safe_load` on the restricted grammar described above. -/
def yamlSafeLoad (s : String) : YamlValue :=
  let cs := trimChars s.data
  match cs with
  | [] => .null
  | c :: _ =>
    if c = '[' ∧ cs.getLast? = some ']' then
      let inner := trimChars ((cs.drop 1).dropLast)
      if inner.isEmpty then .list []
      else .list ((splitOnChar ',' inner).map (fun p => yamlScalar (trimChars p)))
    else if c = '{' ∧ cs.getLast? = some '}' then
      let inner := trimChars ((cs.drop 1).dropLast)
      if inner.isEmpty then .ydict []
      else .ydict ((splitOnChar ',' inner).map yamlEntry)
    else yamlScalar cs

mutual

/-- Embed a parsed YAML document as the Python object `yaml.safe_load`
returns. -/
def valueOfYaml : YamlValue → Value
  | .int n => .vInt n
  | .bool b => .vBool b
  | .str s => .vStr s
  | .null => .vNone
  | .list xs => .vList (valueOfYamlList xs)
  | .ydict kvs => .vDict (valueOfYamlPairs kvs)

/-- List part of `valueOfYaml`. -/
def valueOfYamlList : List YamlValue → List Value
  | [] => []
  | x :: xs => valueOfYaml x :: valueOfYamlList xs

/-- Mapping part of `valueOfYaml`. -/
def valueOfYamlPairs : List (YamlValue × YamlValue) → List (Value × Value)
  | [] => []
  | (k, v) :: kvs => (valueOfYaml k, valueOfYaml v) :: valueOfYamlPairs kvs

end

/-! ## Calling a Python type on a value -/

/-- Python truthiness, as computed by `bool(x)`. -/
def yamlTruthy : YamlValue → Bool
  | .int n => n != 0
  | .bool b => b
  | .str s => !s.data.isEmpty
  | .null => false
  | .list xs => !xs.isEmpty
  | .ydict kvs => !kvs.isEmpty

/-- Python `str(x)` for the scalar shapes the claims exercise; container
reprs are abbreviated (no claim depends on them). -/
def pyStr : YamlValue → String
  | .int n => toString n
  | .bool b => if b then "True" else "False"
  | .str s => s
  | .null => "None"
  | .list _ => "[...]"
  | .ydict _ => "{...}"

/-- Calling the class denoted by `t` on the Python value `v`, as in the
source expressions `typ(v)`, `element_type(e)` and `nested_type(raw)`.
`int()` converts numerals and booleans and raises ValueError on other
strings, TypeError on non-scalars; `bool()` is truthiness and never raises;
`str()` always succeeds; `float()` is modelled on integral inputs only;
calling an enum class performs the member lookup of `EnumMeta.__call__`,
ValueError when no member has that value; calling any typing alias or a
dataclass with a single argument raises TypeError. -/
def pyCallType (t : PyType) (v : YamlValue) : Except PyErr Value :=
  match t with
  | .intT =>
    match v with
    | .int n => .ok (.vInt n)
    | .bool b => .ok (.vInt (if b then 1 else 0))
    | .str s =>
      match parseSignedDigits? (trimChars s.data) with
      | some n => .ok (.vInt n)
      | none => .error .valueError
    | _ => .error .typeError
  | .boolT => .ok (.vBool (yamlTruthy v))
  | .strT => .ok (.vStr (pyStr v))
  | .floatT =>
    match v with
    | .int n => .ok (.vFloat n)
    | .bool b => .ok (.vFloat (if b then 1 else 0))
    | .str s =>
      match parseSignedDigits? (trimChars s.data) with
      | some n => .ok (.vFloat n)
      | none => .error .valueError
    | _ => .error .typeError
  | .enumT _ members =>
    let w := valueOfYaml v
    if members.any (valueBeq w) then .ok w else .error .valueError
  | _ => .error .typeError

/-- Convert a list of parsed elements through one element type, as in the
comprehension `[element_type(e) for e in yml]`; the first conversion error
escapes. -/
def convertAll (t : PyType) : List YamlValue → Except PyErr (List Value)
  | [] => .ok []
  | e :: es => do
    let v ← pyCallType t e
    let vs ← convertAll t es
    .ok (v :: vs)

/-! ## Dataclass instances -/

/-- The environment-variable store: a read-only key/value lookup. -/
def EnvStore := String → Option String

/-- A dataclass instance: field name to current value.
`getattr` finds the current value of a field. -/
def getattr : List (String × Value) → String → Option Value
  | [], _ => none
  | (k, v) :: rest, n => if k = n then some v else getattr rest n

/-- `setattr obj n v` rebinds field `n` (appending when absent, as Python
setattr would create the attribute). -/
def setattr : List (String × Value) → String → Value → List (String × Value)
  | [], n, v => [(n, v)]
  | (k, w) :: rest, n, v =>
    if k = n then (k, v) :: rest else (k, w) :: setattr rest n v

/-! ## The package revision (src/envclasses/__init__.py, version 0.2.4) -/

namespace Pkg

/-- Default prefix used for environment variables (module constant). -/
def ENVCLASS_PREFIX : String := "env"

/-- The per-field prefix computation at the top of the generated
`load_env` loop: take the caller prefix when one was passed (also when it
is empty), else the module default, then append one underscore when the
result is non-empty. -/
def effectivePfx (pfx? : Option String) : String :=
  let p := match pfx? with
    | some p1 => p1
    | none => ENVCLASS_PREFIX
  p ++ (if p = "" then "" else "_")

/-- Environment-variable name composed inside each handler:
uppercased prefix (which already carries its separator) followed by the
uppercased field name. -/
def composeName (pfx fname : String) : String := pyUpperS pfx ++ pyUpperS fname

/-- The full lookup key `load_env` uses for a top-level field, as a function
of the caller-supplied prefix argument. -/
def envKey (pfx? : Option String) (fname : String) : String :=
  composeName (effectivePfx pfx?) fname

/-! ### Type classifier

Each `is_*` predicate mirrors its source function, including the
`try`/`except TypeError` fallbacks. `issubclass` raises TypeError whenever
its first argument is not a class, which is the case for every
parameterized typing alias (`List[..]`, `Tuple[..]`, `Dict[..]`,
`Optional[..]`); the predicates that guard `issubclass` with a
`try`/`except` then fall back to an `isinstance` test that is false for
type descriptors. `is_str` has no guard, so it lets that TypeError
escape. -/

/-- `is_envclass`: a duck-typed check for the generated dunder method,
which only decorated dataclasses expose. -/
def is_envclass : PyType → Bool
  | .envclassT _ => true
  | _ => false

/-- `is_list`: `issubclass(get_origin(typ), list)`, TypeError falling back
to `isinstance(typ, list)` (false for every type descriptor). Only a
`List[..]` alias has origin `list`. -/
def is_list : PyType → Bool
  | .listT _ => true
  | _ => false

/-- `is_tuple`: as `is_list`, with origin `tuple`. -/
def is_tuple : PyType → Bool
  | .tupleT _ => true
  | _ => false

/-- `is_dict`: as `is_list`, with origin `dict`. -/
def is_dict : PyType → Bool
  | .dictT _ _ => true
  | _ => false

/-- `is_enum`: `issubclass(typ, enum.Enum)`, TypeError falling back to
`isinstance(typ, enum.Enum)` (false for type descriptors). -/
def is_enum : PyType → Bool
  | .enumT _ _ => true
  | _ => false

/-- `is_str`: a bare `issubclass(typ, str)` with no exception guard; it
raises TypeError on every parameterized typing alias, `Optional[..]`
included. -/
def is_str : PyType → Except PyErr Bool
  | .listT _ => .error .typeError
  | .tupleT _ => .error .typeError
  | .dictT _ _ => .error .typeError
  | .optionalT _ => .error .typeError
  | .strT => .ok true
  | _ => .ok false

/-- The classifications of the dispatch chain in the generated `load_env`. -/
inductive Classification where
  | nestedConfig
  | listC
  | tupleC
  | dictC
  | enumC
  | strC
  | otherC
deriving DecidableEq, Repr

/-- The `if`/`elif` dispatch chain of the generated `load_env`, in source
order: envclass, list, tuple, dict, enum, str, falling through to the
`_load_other` catch-all. An exception raised by a predicate escapes. -/
def classify (t : PyType) : Except PyErr Classification :=
  if is_envclass t then .ok .nestedConfig
  else if is_list t then .ok .listC
  else if is_tuple t then .ok .tupleC
  else if is_dict t then .ok .dictC
  else if is_enum t then .ok .enumC
  else
    match is_str t with
    | .error e => .error e
    | .ok true => .ok .strC
    | .ok false => .ok .otherC

/-! ### Value decoders

Every handler returns the new field value together with the exception that
escapes it, if any; returning the old value with `none` models the silent
no-op of a lookup miss. -/

/-- `_to_value`: parsed lists and dicts pass through unconverted, every
other parsed value is converted by calling the declared type on it. -/
def _to_value (v : YamlValue) (t : PyType) : Except PyErr Value :=
  match v with
  | .list _ => .ok (valueOfYaml v)
  | .ydict _ => .ok (valueOfYaml v)
  | _ => pyCallType t v

/-- Python iteration over a parsed document, as used by the list and tuple
handlers: a parsed sequence yields its elements, a string yields its
characters as one-character strings, a mapping yields its keys, and the
scalars raise TypeError (`len()` of an unsized value). -/
def pySeqOf : YamlValue → Option (List YamlValue)
  | .list xs => some xs
  | .str s => some (s.data.map (fun c => .str (charsStr [c])))
  | .ydict kvs => some (kvs.map Prod.fst)
  | _ => none

/-- `_load_list`: on a hit, strip, parse with `yaml.safe_load`, convert each
element through the single declared element type, assign; on a miss,
return. Only the environment fetch sits inside the `try`, so parse and
conversion failures escape. -/
def _load_list (env : EnvStore) (pfx fname : String) (t : PyType) (cur : Value) :
    Value × Option PyErr :=
  match t with
  | .listT elemT =>
    let name := composeName pfx fname
    match env name with
    | none => (cur, none)
    | some raw =>
      match pySeqOf (yamlSafeLoad (pyStripS raw)) with
      | none => (cur, some .typeError)
      | some es =>
        match convertAll elemT es with
        | .ok vs => (.vList vs, none)
        | .error e => (cur, some e)
  | _ => (cur, some .attributeError)

/-- Positional conversion `element_type(e)` over `zip(lst, element_types)`. -/
def convertZip : List YamlValue → List PyType → Except PyErr (List Value)
  | [], _ => .ok []
  | _, [] => .ok []
  | e :: es, t :: ts => do
    let v ← pyCallType t e
    let vs ← convertZip es ts
    .ok (v :: vs)

/-- `_load_tuple`: on a hit, strip and parse, compare the parsed length with
the number of declared element types, raising `InvalidNumberOfElement`
carrying expected and actual on mismatch (before any assignment), otherwise
convert positionally and assign; on a miss, return. -/
def _load_tuple (env : EnvStore) (pfx fname : String) (t : PyType) (cur : Value) :
    Value × Option PyErr :=
  match t with
  | .tupleT elemTs =>
    let name := composeName pfx fname
    match env name with
    | none => (cur, none)
    | some raw =>
      match pySeqOf (yamlSafeLoad (pyStripS raw)) with
      | none => (cur, some .typeError)
      | some es =>
        if es.length ≠ elemTs.length then
          (cur, some (.invalidNumberOfElement elemTs.length es.length))
        else
          match convertZip es elemTs with
          | .ok vs => (.vTuple vs, none)
          | .error e => (cur, some e)
  | _ => (cur, some .attributeError)

/-- Key/value conversion of the dict comprehension in `_load_dict`. -/
def convertPairs (kT vT : PyType) :
    List (YamlValue × YamlValue) → Except PyErr (List (Value × Value))
  | [] => .ok []
  | (k, v) :: kvs => do
    let k2 ← _to_value k kT
    let v2 ← _to_value v vT
    let rest ← convertPairs kT vT kvs
    .ok ((k2, v2) :: rest)

/-- `_load_dict`: on a hit, strip, parse, convert each key and value
through the declared key and value types with `_to_value`, assign; `.items()`
on a non-mapping parse raises AttributeError; on a miss, return. -/
def _load_dict (env : EnvStore) (pfx fname : String) (t : PyType) (cur : Value) :
    Value × Option PyErr :=
  match t with
  | .dictT kT vT =>
    let name := composeName pfx fname
    match env name with
    | none => (cur, none)
    | some raw =>
      match yamlSafeLoad (pyStripS raw) with
      | .ydict kvs =>
        match convertPairs kT vT kvs with
        | .ok entries => (.vDict entries, none)
        | .error e => (cur, some e)
      | _ => (cur, some .attributeError)
  | _ => (cur, some .attributeError)

/-- The candidate loop of `_load_enum`: for each member type annotation in
declaration order, convert the raw environment string through it and call
the enum class on the result; KeyError (variable absent) and ValueError
(conversion failed, or no member carries that value) continue with the next
candidate; the first success assigns and returns; an exhausted loop leaves
the field untouched with no error. -/
def enumLoop (env : EnvStore) (name : String) (members : List Value) :
    List PyType → Value → Value × Option PyErr
  | [], cur => (cur, none)
  | t :: rest, cur =>
    match env name with
    | none => enumLoop env name members rest cur
    | some raw =>
      match pyCallType t (.str raw) with
      | .error .valueError => enumLoop env name members rest cur
      | .error .keyError => enumLoop env name members rest cur
      | .error e => (cur, some e)
      | .ok v =>
        if members.any (valueBeq v) then (v, none)
        else enumLoop env name members rest cur

/-- `_load_enum`: read the member type annotations from the enum class
dictionary (empty when the class declares none) and run the candidate
loop. -/
def _load_enum (env : EnvStore) (pfx fname : String) (t : PyType) (cur : Value) :
    Value × Option PyErr :=
  match t with
  | .enumT anns members => enumLoop env (composeName pfx fname) members anns cur
  | _ => (cur, none)

/-- `_load_str`: on a hit, assign `_to_value` of the raw string (which for a
str-typed field is the raw string itself, unparsed); on a miss, pass. -/
def _load_str (env : EnvStore) (pfx fname : String) (t : PyType) (cur : Value) :
    Value × Option PyErr :=
  let name := composeName pfx fname
  match env name with
  | none => (cur, none)
  | some raw =>
    match _to_value (.str raw) t with
    | .ok v => (v, none)
    | .error e => (cur, some e)

/-- `_load_other`: on a hit, parse the raw value with `yaml.safe_load` and
assign `_to_value` of the parse under the declared type; only KeyError is
caught, so conversion failures escape; on a miss, pass. -/
def _load_other (env : EnvStore) (pfx fname : String) (t : PyType) (cur : Value) :
    Value × Option PyErr :=
  let name := composeName pfx fname
  match env name with
  | none => (cur, none)
  | some raw =>
    match _to_value (yamlSafeLoad raw) t with
    | .ok v => (v, none)
    | .error e => (cur, some e)

/-- One pass of the generated `load_env` over the declared fields, in
declaration order. `fuel` bounds the number of processed fields across the
recursive descent, standing in for the Python recursion limit; it is never
exhausted on the finite concrete classes the claims exercise. The
`nestedConfig` branch is `_load_dataclass` inlined: compose the inner
prefix from the current prefix and the field name, fetch the existing
attribute value, run its own generated loader on it, and swallow a KeyError
escaping that call; the partially mutated nested object stays in place
either way. A handler error stops the loop and escapes with the fields
processed so far already mutated. -/
def loadEnvGo (env : EnvStore) (pfx? : Option String) :
    Nat → List (String × PyType) → List (String × Value) →
    List (String × Value) × Option PyErr
  | _, [], obj => (obj, none)
  | 0, _ :: _, obj => (obj, some .recursionError)
  | fuel + 1, (fname, t) :: rest, obj =>
    let pfx := effectivePfx pfx?
    match getattr obj fname with
    | none => (obj, some .attributeError)
    | some cur =>
      let r : Value × Option PyErr :=
        match classify t with
        | .error e => (cur, some e)
        | .ok .nestedConfig =>
          match t, cur with
          | .envclassT fts, .vObj kvs =>
            let rr := loadEnvGo env (some (pfx ++ fname)) fuel fts kvs
            match rr.2 with
            | some .keyError => (.vObj rr.1, none)
            | e? => (.vObj rr.1, e?)
          | _, _ => (cur, some .attributeError)
        | .ok .listC => _load_list env pfx fname t cur
        | .ok .tupleC => _load_tuple env pfx fname t cur
        | .ok .dictC => _load_dict env pfx fname t cur
        | .ok .enumC => _load_enum env pfx fname t cur
        | .ok .strC => _load_str env pfx fname t cur
        | .ok .otherC => _load_other env pfx fname t cur
      let obj2 := setattr obj fname r.1
      match r.2 with
      | some e => (obj2, some e)
      | none => loadEnvGo env pfx? fuel rest obj2

/-- The recursion budget, standing in for the Python recursion limit. -/
def RECURSION_LIMIT : Nat := 1000

/-- Public entry point `load_env(inst, prefix)`: run the generated loader of
the instance over its declared fields. The result pairs the instance after
the call with the exception that escaped, if any. -/
def load_env (env : EnvStore) (pfx? : Option String) (tys : List (String × PyType))
    (obj : List (String × Value)) : List (String × Value) × Option PyErr :=
  loadEnvGo env pfx? RECURSION_LIMIT tys obj

end Pkg

/-! ## The legacy revision (src/envclasses.py, version 0.1.0) -/

namespace Legacy

/-- `_prefix or ENVCLASS_PREFIX`: the empty string is falsy in Python, so an
explicit empty prefix also falls back to the module default. -/
def effectivePfx (pfx? : Option String) : String :=
  match pfx? with
  | none => "env"
  | some p => if p = "" then "env" else p

/-- Environment-variable name in the legacy handlers: uppercased prefix, an
underscore inserted unconditionally, uppercased field name. -/
def envName (pfx fname : String) : String :=
  pyUpperS pfx ++ "_" ++ pyUpperS fname

/-- `LIST_QUOTES`: the quotation characters (single and double quote)
accepted around string tokens. -/
def quoteChars : List Char := [Char.ofNat 39, Char.ofNat 34]

/-- `str_to_bool`: lower-case the token; true for true/1/yes, false for
false/0/no, otherwise raise a `LoadEnvError` naming the token. -/
def str_to_bool (s : String) : Except PyErr Bool :=
  let l := pyLowerS s
  if ["true", "1", "yes"].contains l then .ok true
  else if ["false", "0", "no"].contains l then .ok false
  else .error (.loadEnvError s)

/-- Legacy `_to_value` on one comma-separated token: a str-typed token must
carry quotes at both ends (IndexError on the empty token, EnvclassError
otherwise) and is unquoted; a bool-typed token goes through `str_to_bool`;
any other type is called on the token. -/
def _to_value (e : String) (t : PyType) : Except PyErr Value :=
  match t with
  | .strT =>
    match e.data with
    | [] => .error .indexError
    | c :: _ =>
      if quoteChars.contains c && e.data.getLast?.any quoteChars.contains then
        .ok (.vStr (charsStr ((e.data.drop 1).dropLast)))
      else .error .envclassError
  | .boolT => (str_to_bool e).map Value.vBool
  | _ => pyCallType t (.str e)

/-- The comprehension `[_to_value(e.strip(), element_typ) for e in ..]`:
every token converts through the one declared element type, the first
failure escaping. -/
def convertTokensAll (t : PyType) : List String → Except PyErr (List Value)
  | [] => .ok []
  | e :: es => do
    let v ← _to_value e t
    let vs ← convertTokensAll t es
    .ok (v :: vs)

/-- Token-by-token conversion over `zip(lst, element_types)`. -/
def convertTokens : List String → List PyType → Except PyErr (List Value)
  | [], _ => .ok []
  | _, [] => .ok []
  | e :: es, t :: ts => do
    let v ← _to_value e t
    let vs ← convertTokens es ts
    .ok (v :: vs)

/-- Legacy `_load_primitive`: on a hit, convert the raw string through
`str_to_bool` for a bool-typed field and through the declared type
otherwise, then assign; on a miss, pass. -/
def _load_primitive (env : EnvStore) (pfx fname : String) (t : PyType) (cur : Value) :
    Value × Option PyErr :=
  let name := envName pfx fname
  match env name with
  | none => (cur, none)
  | some raw =>
    let conv : String → Except PyErr Value :=
      match t with
      | .boolT => fun s => (str_to_bool s).map Value.vBool
      | _ => fun s => pyCallType t (.str s)
    match conv raw with
    | .ok v => (v, none)
    | .error e => (cur, some e)

/-- Legacy `_load_list`: the whole body sits in a `try` whose only handler
catches KeyError, so a miss is a silent pass. On a hit, strip, require `[`
and `]` at the ends (IndexError on an empty stripped value, EnvclassError on
missing brackets), split the inside on commas, strip each token and convert
it through the element type. Splitting an empty inside yields the single
empty token, which the conversion then receives. -/
def _load_list (env : EnvStore) (pfx fname : String) (t : PyType) (cur : Value) :
    Value × Option PyErr :=
  match t with
  | .listT elemT =>
    let name := envName pfx fname
    match env name with
    | none => (cur, none)
    | some raw =>
      let s := trimChars raw.data
      match s with
      | [] => (cur, some .indexError)
      | c :: _ =>
        if c = '[' ∧ s.getLast? = some ']' then
          let toks := (splitOnChar ',' ((s.drop 1).dropLast)).map
            (fun p => charsStr (trimChars p))
          match convertTokensAll elemT toks with
          | .ok vs => (.vList vs, none)
          | .error e => (cur, some e)
        else (cur, some .envclassError)
  | _ => (cur, some .attributeError)

/-- Legacy `_load_tuple`: the `try` around the environment fetch ends in
`except KeyError: pass` while the rest of the body sits after it, so on a
miss the local `s` is never bound and the bracket test raises NameError.
On a hit, require `(` and `)` at the ends, split and strip the tokens,
compare the token count with the declared element-type count (raising
`InvalidNumberOfElement` carrying expected and actual before any
assignment), then convert positionally and assign. -/
def _load_tuple (env : EnvStore) (pfx fname : String) (t : PyType) (cur : Value) :
    Value × Option PyErr :=
  match t with
  | .tupleT elemTs =>
    let name := envName pfx fname
    match env name with
    | none => (cur, some .nameError)
    | some raw =>
      let s := trimChars raw.data
      match s with
      | [] => (cur, some .indexError)
      | c :: _ =>
        if c = '(' ∧ s.getLast? = some ')' then
          let toks := (splitOnChar ',' ((s.drop 1).dropLast)).map
            (fun p => charsStr (trimChars p))
          if toks.length ≠ elemTs.length then
            (cur, some (.invalidNumberOfElement elemTs.length toks.length))
          else
            match convertTokens toks elemTs with
            | .ok vs => (.vTuple vs, none)
            | .error e => (cur, some e)
        else (cur, some .envclassError)
  | _ => (cur, some .attributeError)

end Legacy

/-! ## Spec-side comparison definitions -/

/-- Boolean token semantics as the specification states them, for the
refinement comparison with the decoders above: the tokens true/1/yes in any
letter case decode to true, false/0/no in any letter case decode to false,
and every other token is rejected. -/
def specBoolToken (s : String) : Option Bool :=
  if ["true", "1", "yes"].contains (pyLowerS s) then some true
  else if ["false", "0", "no"].contains (pyLowerS s) then some false
  else none

/-- One enum candidate type fails for a raw string when the conversion
raises one of the caught exception kinds (ValueError or KeyError) or when
the converted value is the payload of no member. -/
def enumTryFails (members : List Value) (raw : String) (t : PyType) : Bool :=
  match pyCallType t (.str raw) with
  | .error .valueError => true
  | .error .keyError => true
  | .error _ => false
  | .ok v => !(members.any (valueBeq v))

/-! ## Theorems for the claims -/

/-- C1: The claim (a miss is a silent no-op for every field classification,
tuples included) fails on the legacy revision: its `_load_tuple` ends the
`try` with `except KeyError: pass` and then reads the never-bound local
`s`, so an absent environment variable raises NameError out of `load_env`
instead of leaving the field alone. The package revision of the same
handler returns on the miss with the field untouched, as the claim says. -/
theorem legacy_tuple_env_miss_raises (cur : Value) :
    Legacy._load_tuple (fun _ => none) "env" "tpl" (.tupleT [.intT, .floatT]) cur
      = (cur, some .nameError) ∧
    Pkg._load_tuple (fun _ => none) "env_" "tpl" (.tupleT [.intT, .floatT]) cur
      = (cur, none) :=
  ⟨rfl, rfl⟩

/-- C2 counterexample: under the package revision a boolean field is decoded
by `yaml.safe_load` followed by `bool()` truthiness, so the token `fAlSe`
(which the claim says decodes to false) silently assigns True, and the
unknown token `maybe` (which the claim says raises) also silently assigns
True; no failure is raised in either case. -/
theorem pkg_bool_unknown_token_silently_true :
    Pkg.load_env (fun k => if k = "ENV_B" then some "fAlSe" else none) none
      [("b", .boolT)] [("b", .vBool false)] = ([("b", .vBool true)], none) ∧
    Pkg.load_env (fun k => if k = "ENV_B" then some "maybe" else none) none
      [("b", .boolT)] [("b", .vBool false)] = ([("b", .vBool true)], none) :=
  ⟨rfl, rfl⟩

/-- C2 amended: the claimed boolean token semantics hold for the legacy
revision, whose `_load_primitive` converts a bool-typed field through
`str_to_bool`: a token whose lower-casing is true/1/yes assigns true, one
whose lower-casing is false/0/no assigns false, and every other token
raises a `LoadEnvError` naming the token and leaves the field unchanged. -/
theorem legacy_bool_field_token_semantics (env : EnvStore) (pfx fname raw : String)
    (cur : Value) (h : env (Legacy.envName pfx fname) = some raw) :
    Legacy._load_primitive env pfx fname .boolT cur =
      match specBoolToken raw with
      | some b => (.vBool b, none)
      | none => (cur, some (.loadEnvError raw)) := by
  simp only [Legacy._load_primitive, h]
  simp only [Legacy.str_to_bool, specBoolToken]
  by_cases h1 : pyLowerS raw = "true" ∨ pyLowerS raw = "1" ∨ pyLowerS raw = "yes"
  · simp [h1, Except.map]
  · by_cases h2 : pyLowerS raw = "false" ∨ pyLowerS raw = "0" ∨ pyLowerS raw = "no"
    · simp [h1, h2, Except.map]
    · simp [h1, h2, Except.map]

/-- C2 amended, witness: the three token classes at concrete inputs. -/
theorem legacy_bool_field_token_semantics_witness :
    Legacy._load_primitive (fun k => if k = "ENV_B" then some "YES" else none)
      "env" "b" .boolT (.vBool false) = (.vBool true, none) ∧
    Legacy._load_primitive (fun k => if k = "ENV_B" then some "No" else none)
      "env" "b" .boolT (.vBool true) = (.vBool false, none) ∧
    Legacy._load_primitive (fun k => if k = "ENV_B" then some "maybe" else none)
      "env" "b" .boolT (.vBool false)
      = (.vBool false, some (.loadEnvError "maybe")) := by
  refine ⟨?_, ?_, ?_⟩
  · exact legacy_bool_field_token_semantics _ "env" "b" "YES" _ rfl
  · exact legacy_bool_field_token_semantics _ "env" "b" "No" _ rfl
  · exact legacy_bool_field_token_semantics _ "env" "b" "maybe" _ rfl

/-- C3: the first three key compositions are as claimed (default prefix
gives ENV_I, the empty prefix gives the bare I, prefix A gives A_I), but a
prefix that already ends in an underscore gets a second one appended, so
`load_env(h, "AB_")` looks up AB__I and not the claimed AB_I; with only
AB_I set (as the repository's own prefix test sets it) the field keeps its
old value. -/
theorem prefix_composition_keys :
    Pkg.envKey none "i" = "ENV_I" ∧
    Pkg.envKey (some "") "i" = "I" ∧
    Pkg.envKey (some "A") "i" = "A_I" ∧
    Pkg.envKey (some "AB_") "i" = "AB__I" ∧
    ("AB__I" : String) ≠ "AB_I" ∧
    Pkg.load_env (fun k => if k = "AB_I" then some "40" else none) (some "AB_")
      [("i", .intT)] [("i", .vInt 30)] = ([("i", .vInt 30)], none) :=
  ⟨rfl, rfl, rfl, rfl, by decide, rfl⟩

/-- C4: whenever the raw value of a tuple-typed field parses as a sequence
whose length differs from the number of declared element types, the package
tuple handler raises `InvalidNumberOfElement` carrying the expected and the
actual count, before any assignment, so the field keeps its prior value. -/
theorem tuple_arity_mismatch_raises (env : EnvStore) (pfx fname raw : String)
    (elemTs : List PyType) (cur : Value) (es : List YamlValue)
    (h1 : env (Pkg.composeName pfx fname) = some raw)
    (h2 : yamlSafeLoad (pyStripS raw) = .list es)
    (h3 : es.length ≠ elemTs.length) :
    Pkg._load_tuple env pfx fname (.tupleT elemTs) cur
      = (cur, some (.invalidNumberOfElement elemTs.length es.length)) := by
  simp only [Pkg._load_tuple, h1, h2, Pkg.pySeqOf]
  simp [h3]

/-- C4 witness: a 2-element tuple field given the 1-element literal raises
with expected 2, actual 1, and keeps its old value. -/
theorem tuple_arity_mismatch_raises_witness :
    Pkg._load_tuple (fun k => if k = "ENV_T" then some "[1]" else none) "env_" "t"
      (.tupleT [.intT, .intT]) (.vTuple [.vInt 5, .vInt 6])
      = (.vTuple [.vInt 5, .vInt 6], some (.invalidNumberOfElement 2 1)) :=
  tuple_arity_mismatch_raises _ "env_" "t" "[1]" [.intT, .intT] _ [.int 1]
    rfl rfl (by decide)

/-- C5: with only ENV_FUGA_I set (ENV_FUGA itself absent), the default
prefix load of `Hoge(i, s, fuga: Fuga(i, s))` descends into the existing
`fuga` attribute value with the child prefix `env_fuga` and overrides
`fuga.i`, leaving every other field of the outer and the inner object at
its old value; the new `fuga` is the old instance updated field by field,
never a fresh one. -/
theorem nested_descent_overrides_inner_field (i0 s0 fi fs : Value) :
    Pkg.load_env (fun k => if k = "ENV_FUGA_I" then some "200" else none) none
      [("i", .intT), ("s", .strT), ("fuga", .envclassT [("i", .intT), ("s", .strT)])]
      [("i", i0), ("s", s0), ("fuga", .vObj [("i", fi), ("s", fs)])]
    = ([("i", i0), ("s", s0), ("fuga", .vObj [("i", .vInt 200), ("s", fs)])], none) :=
  rfl

/-- Exhausting the candidate loop leaves the field unchanged with no
error. -/
theorem enumLoop_all_fail (env : EnvStore) (name raw : String) (members : List Value)
    (h : env name = some raw) :
    ∀ (anns : List PyType) (cur : Value),
      (∀ t, t ∈ anns → enumTryFails members raw t = true) →
      Pkg.enumLoop env name members anns cur = (cur, none) := by
  intro anns
  induction anns with
  | nil => intro cur _; rfl
  | cons t rest ih =>
    intro cur hall
    have ht := hall t (List.mem_cons_self t rest)
    have htail : ∀ t2, t2 ∈ rest → enumTryFails members raw t2 = true :=
      fun t2 hmem => hall t2 (List.mem_cons_of_mem t hmem)
    simp only [Pkg.enumLoop, h]
    unfold enumTryFails at ht
    cases hc : pyCallType t (.str raw) with
    | error e =>
      rw [hc] at ht
      cases e <;> simp_all [ih cur htail]
    | ok v =>
      rw [hc] at ht
      simp only [Bool.not_eq_true'] at ht
      simp [ht, ih cur htail]

/-- The first candidate that converts to a member payload wins. -/
theorem enumLoop_first_hit (env : EnvStore) (name raw : String) (members : List Value)
    (h : env name = some raw) :
    ∀ (ts1 : List PyType) (t2 : PyType) (ts2 : List PyType) (v cur : Value),
      (∀ t, t ∈ ts1 → enumTryFails members raw t = true) →
      pyCallType t2 (.str raw) = .ok v →
      members.any (valueBeq v) = true →
      Pkg.enumLoop env name members (ts1 ++ t2 :: ts2) cur = (v, none) := by
  intro ts1
  induction ts1 with
  | nil =>
    intro t2 ts2 v cur _ hok hmem
    simp only [List.nil_append, Pkg.enumLoop, h, hok]
    simp [hmem]
  | cons t rest ih =>
    intro t2 ts2 v cur hall hok hmem
    have ht := hall t (List.mem_cons_self t rest)
    have htail : ∀ t3, t3 ∈ rest → enumTryFails members raw t3 = true :=
      fun t3 hmem3 => hall t3 (List.mem_cons_of_mem t hmem3)
    simp only [List.cons_append, Pkg.enumLoop, h]
    unfold enumTryFails at ht
    cases hc : pyCallType t (.str raw) with
    | error e =>
      rw [hc] at ht
      cases e <;> simp_all [ih t2 ts2 v cur htail hok hmem]
    | ok w =>
      rw [hc] at ht
      simp only [Bool.not_eq_true'] at ht
      simp [ht, ih t2 ts2 v cur htail hok hmem]

/-- C6: with the environment variable present, the enum decoder tries the
declared member types in order; if every candidate fails (conversion
raises a caught kind, or the converted value is no member payload), the
field is left unchanged and no error escapes; otherwise the first
candidate that converts to the payload of an existing member assigns that
member. -/
theorem enum_first_match_or_silent_skip (env : EnvStore) (pfx fname raw : String)
    (members : List Value) (cur : Value)
    (h : env (Pkg.composeName pfx fname) = some raw) :
    (∀ anns, (∀ t, t ∈ anns → enumTryFails members raw t = true) →
        Pkg._load_enum env pfx fname (.enumT anns members) cur = (cur, none)) ∧
    (∀ ts1 t2 ts2 v, (∀ t, t ∈ ts1 → enumTryFails members raw t = true) →
        pyCallType t2 (.str raw) = .ok v → members.any (valueBeq v) = true →
        Pkg._load_enum env pfx fname (.enumT (ts1 ++ t2 :: ts2) members) cur
          = (v, none)) := by
  constructor
  · intro anns hall
    exact enumLoop_all_fail env _ raw members h anns cur hall
  · intro ts1 t2 ts2 v hall hok hmem
    exact enumLoop_first_hit env _ raw members h ts1 t2 ts2 v cur hall hok hmem

/-- C6 witness: a string-payload enum with members hoge1 and hoge2 skips
silently on the raw value hoge3 and selects hoge2 on the raw value
hoge2. -/
theorem enum_first_match_or_silent_skip_witness :
    Pkg._load_enum (fun k => if k = "ENV_S" then some "hoge3" else none) "env_" "s"
      (.enumT [.strT] [.vStr "hoge1", .vStr "hoge2"]) (.vStr "hoge1")
      = (.vStr "hoge1", none) ∧
    Pkg._load_enum (fun k => if k = "ENV_S" then some "hoge2" else none) "env_" "s"
      (.enumT [.strT] [.vStr "hoge1", .vStr "hoge2"]) (.vStr "hoge1")
      = (.vStr "hoge2", none) := by
  constructor
  · exact (enum_first_match_or_silent_skip _ "env_" "s" "hoge3" _ _ rfl).1 [.strT]
      (by intro t ht; rcases List.mem_singleton.mp ht with rfl; rfl)
  · exact (enum_first_match_or_silent_skip _ "env_" "s" "hoge2" _ _ rfl).2 [] .strT []
      (.vStr "hoge2") (by intro t ht; exact absurd ht (List.not_mem_nil t)) rfl rfl

/-- C7 counterexample: the legacy list handler splits the inside of the
brackets on commas, so the empty literal yields the single empty token,
whose conversion through int raises ValueError; the empty literal is an
error there, not an empty sequence. -/
theorem legacy_empty_list_literal_fails :
    Legacy._load_list (fun k => if k = "ENV_LST" then some "[]" else none) "env" "lst"
      (.listT .intT) (.vList [.vInt 9])
      = (.vList [.vInt 9], some .valueError) :=
  rfl

/-- C7 amended: under the package revision, an integer-list field given the
literal list of 1, 2, 3 is assigned the ordered sequence of those integers
(each element converted through the declared element type), and the empty
literal is assigned the empty sequence with no error. -/
theorem pkg_int_list_round_trip (env env2 : EnvStore) (cur cur2 : Value)
    (h1 : env "ENV_LST" = some "[1, 2, 3]") (h2 : env2 "ENV_LST" = some "[]") :
    Pkg._load_list env "env_" "lst" (.listT .intT) cur
      = (.vList [.vInt 1, .vInt 2, .vInt 3], none) ∧
    Pkg._load_list env2 "env_" "lst" (.listT .intT) cur2 = (.vList [], none) := by
  have e1 : Pkg.composeName "env_" "lst" = "ENV_LST" := rfl
  constructor
  · simp only [Pkg._load_list, e1, h1]; rfl
  · simp only [Pkg._load_list, e1, h2]; rfl

/-- C7 amended, witness: both round trips at concrete stores. -/
theorem pkg_int_list_round_trip_witness :
    Pkg._load_list (fun k => if k = "ENV_LST" then some "[1, 2, 3]" else none)
      "env_" "lst" (.listT .intT) (.vList [])
      = (.vList [.vInt 1, .vInt 2, .vInt 3], none) ∧
    Pkg._load_list (fun k => if k = "ENV_LST" then some "[]" else none)
      "env_" "lst" (.listT .intT) (.vList [.vInt 9]) = (.vList [], none) :=
  pkg_int_list_round_trip _ _ _ _ rfl rfl

/-- C8: a decode failure in one field escapes the whole call at once:
with ENV_I, ENV_T and ENV_S all set and the tuple literal too short, the
int field before the failing tuple keeps its freshly assigned value (no
rollback), the failing tuple field keeps its prior value, and the str
field after it is left unprocessed at its prior value, while the
arity-mismatch failure escapes. -/
theorem decode_failure_keeps_earlier_mutations (i0 t0 s0 : Value) :
    Pkg.load_env (fun k => if k = "ENV_I" then some "20"
        else if k = "ENV_T" then some "[1]"
        else if k = "ENV_S" then some "x" else none) none
      [("i", .intT), ("t", .tupleT [.intT, .intT]), ("s", .strT)]
      [("i", i0), ("t", t0), ("s", s0)]
    = ([("i", .vInt 20), ("t", t0), ("s", s0)],
       some (.invalidNumberOfElement 2 1)) :=
  rfl

/-- C9: the classifier is total and single-valued on ordinary primitive
types (and on parameterized containers), but an optional wrapper is not
classified by its wrapped type: the dispatch chain reaches the unguarded
`issubclass` of `is_str`, which raises TypeError on the `Optional[..]`
alias, so classification of such a field crashes `load_env`. -/
theorem classifier_optional_raises_typeerror :
    Pkg.classify .intT = .ok .otherC ∧
    Pkg.classify .floatT = .ok .otherC ∧
    Pkg.classify .boolT = .ok .otherC ∧
    Pkg.classify .strT = .ok .strC ∧
    Pkg.classify (.listT .intT) = .ok .listC ∧
    Pkg.classify (.optionalT .strT) = .error .typeError ∧
    Pkg.classify (.optionalT (.listT .floatT)) = .error .typeError :=
  ⟨rfl, rfl, rfl, rfl, rfl, rfl, rfl⟩

/-- C10: an enumeration class that declares no member type annotations
makes the candidate loop iterate zero times, so the field is left
unchanged with no error even when the environment variable is present and
its raw value is the payload of an existing member. -/
theorem enum_without_annotations_never_overridden (env : EnvStore)
    (pfx fname raw : String) (members : List Value) (cur : Value)
    (h1 : env (Pkg.composeName pfx fname) = some raw)
    (h2 : members.any (valueBeq (.vStr raw)) = true) :
    Pkg._load_enum env pfx fname (.enumT [] members) cur = (cur, none) :=
  rfl

/-- C10 witness: a member-valued raw string against an annotation-free
enum class leaves the field at its old value. -/
theorem enum_without_annotations_never_overridden_witness :
    Pkg._load_enum (fun k => if k = "ENV_S" then some "s" else none) "env_" "s"
      (.enumT [] [.vStr "s"]) .vNone = (.vNone, none) :=
  enum_without_annotations_never_overridden _ "env_" "s" "s" [.vStr "s"] .vNone
    rfl rfl

end Envclasses
